import Mathlib

/-!
Verification of the Shared Group Calendar Manager.

The repository ships a Next.js frontend (`frontend/src/app/calendar/page.js`,
`frontend/src/lib/api.js`, context providers) together with the product
specification of the backend scheduling engine.  The backend itself (the
FastAPI service layer: timezone/DND resolver, conflict evaluator, mutation
coordinator, change-request workflow) is not part of the source tree; only
its callers and its specification are.  Accordingly:

* the definitions in the `Frontend` namespace are shallow embeddings of the
  JavaScript code in `frontend/src/` (the per-day event filters of the
  calendar views and the `request` helper of the API client);
* the definitions in the `Backend` namespace are modelled from the spec
  (sections 3, 4.1-4.4, 7 of `spec.md` and §5-§15 of the product
  specification), since the Python services are absent from the tree.

Times are modelled as minutes (an `Int`), timezones as fixed offsets from
UTC in minutes; identifiers and idempotency keys are natural numbers.
-/

namespace Frontend

/-- The local calendar date triple a JS `Date` exposes through
`getFullYear` / `getMonth` / `getDate`. -/
structure LocalDate where
  year : Int
  month : Int
  day : Int
deriving DecidableEq, Repr

/-- `isSameDay` from `calendar/page.js` (lines 37-43): two dates agree on
year, month and day-of-month. -/
def isSameDay (a b : LocalDate) : Bool :=
  a.year == b.year && a.month == b.month && a.day == b.day

/-- An event object as the calendar page receives it from the backend:
only the fields the per-day filters inspect, plus the identifier. -/
structure JsEvent where
  event_id : Nat
  group_id : Nat
  title : String
  status : String
  start_time_utc : Nat
deriving DecidableEq, Repr

/-- `getEventsForDay` from `CalendarPage` (page.js lines 127-133): drop
events whose `status` is `"Cancelled"`, keep those whose start instant,
converted to a local date (`new Date(evt.start_time_utc)`), is the same day.
The environment's UTC-to-local conversion is the parameter `toLocal`. -/
def getEventsForDay (toLocal : Nat → LocalDate) (events : List JsEvent)
    (day : LocalDate) : List JsEvent :=
  events.filter (fun evt =>
    if evt.status == "Cancelled" then false
    else isSameDay (toLocal evt.start_time_utc) day)

/-- The inline per-day filter of `WeekView` (page.js lines 514-519). -/
def weekViewDayEvents (toLocal : Nat → LocalDate) (events : List JsEvent)
    (day : LocalDate) : List JsEvent :=
  events.filter (fun evt =>
    if evt.status == "Cancelled" then false
    else isSameDay (toLocal evt.start_time_utc) day)

/-- `getEventsForDay` local to `MonthView` (page.js lines 671-676). -/
def monthViewEventsForDay (toLocal : Nat → LocalDate) (events : List JsEvent)
    (day : LocalDate) : List JsEvent :=
  events.filter (fun evt =>
    if evt.status == "Cancelled" then false
    else isSameDay (toLocal evt.start_time_utc) day)

/-- The inline per-day filter of `DayView` (page.js lines 731-735). -/
def dayViewDayEvents (toLocal : Nat → LocalDate) (events : List JsEvent)
    (day : LocalDate) : List JsEvent :=
  events.filter (fun evt =>
    if evt.status == "Cancelled" then false
    else isSameDay (toLocal evt.start_time_utc) day)

/-- The JSON body of an HTTP response, as far as the API client inspects
it: an optional string field `detail`.  `none` models an absent field. -/
structure ResponseBody where
  detail : Option String
deriving DecidableEq, Repr

/-- An HTTP response as seen by `request` in `lib/api.js`: the status code
and the result of `res.json()` (`none` when the body fails to parse). -/
structure HttpResponse where
  status : Nat
  jsonBody : Option ResponseBody
deriving DecidableEq, Repr

/-- `Response.ok` of the Fetch API: status in the inclusive range 200-299. -/
def httpOk (status : Nat) : Bool :=
  200 ≤ status && status < 300

/-- What `request` in `lib/api.js` (lines 8-22) resolves to:
`success none` models the `null` returned for a 204, `success (some b)`
the parsed JSON body, `thrown msg st` the `Error` thrown for a non-ok
response (`msg` its message, `st` its `status` field), and `jsonRejected`
the rejection of `res.json()` on an ok, non-204 response. -/
inductive RequestOutcome where
  | success (body : Option ResponseBody)
  | thrown (message : String) (status : Nat)
  | jsonRejected
deriving DecidableEq, Repr

/-- The `request` helper of `lib/api.js` (lines 8-22).  For a non-ok
response the body is `res.json().catch(() => ({}))`, and the message is
`body.detail || "Request failed: <status>"` — JavaScript `||` falls through
on an empty string as well as on an absent field. -/
def requestOutcome (res : HttpResponse) : RequestOutcome :=
  if !httpOk res.status then
    let body := res.jsonBody.getD ⟨none⟩
    let fallback := "Request failed: " ++ toString res.status
    let msg := match body.detail with
      | some d => if d == "" then fallback else d
      | none => fallback
    .thrown msg res.status
  else if res.status == 204 then .success none
  else match res.jsonBody with
    | some b => .success (some b)
    | none => .jsonRejected

end Frontend

namespace Backend

/-- Constraint tier of an event (spec §3 Event, product spec §5.3). -/
inductive Tier where
  | Hard
  | Soft
deriving DecidableEq, Repr

/-- Lifecycle status of an event (spec §3 Event). -/
inductive Status where
  | Scheduled
  | Cancelled
deriving DecidableEq, Repr

/-- RSVP status of an attendee (spec §3 Attendee). -/
inductive RSVPStatus where
  | invited
  | going
  | maybe
  | declined
deriving DecidableEq, Repr

/-- State of a change request (spec §4.4). -/
inductive CRState where
  | pending
  | approved
  | rejected
deriving DecidableEq, Repr

/-- Action type of a ledger entry (spec §3 EventMutation). -/
inductive ActionType where
  | create
  | update
  | cancel
  | rsvp
  | approve_change
  | reject_change
deriving DecidableEq, Repr

/-- Which conflict rule fired (spec §4.2 rules 2 and 3). -/
inductive ConflictReason where
  | hardHard
  | quietHours
deriving DecidableEq, Repr

/-- The error taxonomy of spec §7. -/
inductive SchedError where
  | ValidationError
  | PermissionError
  | ConflictError (reason : ConflictReason)
  | VersionConflictError
  | NotFoundError
deriving DecidableEq, Repr

/-- Modelled from the spec: a User row (spec §3, product spec §5.1) of the
missing backend.  The IANA `default_timezone` is abstracted to its fixed
offset from UTC in minutes; the quiet-hours window bounds are local
minutes-of-day. -/
structure User where
  user_id : Nat
  default_timezone : Int
  dnd_window_start_local : Option Int
  dnd_window_end_local : Option Int
deriving DecidableEq, Repr

/-- Modelled from the spec: an Event row (spec §3, product spec §5.3) of
the missing backend.  Instants are UTC minutes. -/
structure Event where
  event_id : Nat
  group_id : Nat
  organizer_id : Nat
  title : String
  start_time_utc : Int
  end_time_utc : Int
  constraint_level : Tier
  status : Status
  version : Nat
deriving DecidableEq, Repr

/-- Modelled from the spec: an Attendee row (spec §3, product spec §5.4). -/
structure Attendee where
  event_id : Nat
  user_id : Nat
  rsvp_status : RSVPStatus
deriving DecidableEq, Repr

/-- Partial event fields carried by an update or change request
(spec §4.3 update `changes`, §4.4 proposed changes). -/
structure Changes where
  title : Option String
  start_time_utc : Option Int
  end_time_utc : Option Int
  constraint_level : Option Tier
deriving DecidableEq, Repr

/-- Modelled from the spec: a ChangeRequest row (spec §3, §4.4). -/
structure ChangeRequest where
  request_id : Nat
  event_id : Nat
  proposer_id : Nat
  changes : Changes
  state : CRState
deriving DecidableEq, Repr

/-- Modelled from the spec: an EventMutation ledger entry (spec §3):
action type, target event, actor, before/after snapshots and the
idempotency key of the call (when one was carried). -/
structure LedgerEntry where
  event_id : Nat
  actor_id : Nat
  action : ActionType
  before : Option Event
  after : Option Event
  key : Option Nat
deriving DecidableEq, Repr

/-- Modelled from the spec: the Entity Store (spec §2, §3).  Groups are
their identifiers, memberships are (user, group) pairs, `idem` records the
result previously returned for each idempotency key, and `nextId` supplies
fresh identifiers. -/
structure State where
  users : List User
  groups : List Nat
  memberships : List (Nat × Nat)
  events : List Event
  attendees : List Attendee
  requests : List ChangeRequest
  ledger : List LedgerEntry
  idem : List (Nat × Event)
  nextId : Nat
deriving DecidableEq, Repr

/-- Half-open interval overlap of spec §4.2 rule 1:
`a.start < b.end && b.start < a.end`. -/
def overlapsIv (a b : Int × Int) : Bool :=
  a.1 < b.2 && b.1 < a.2

/-- Local minute `m` of day `date` converted to a UTC instant through the
user's default timezone (spec §4.1: must use `default_timezone`). -/
def localToUtc (u : User) (date m : Int) : Int :=
  date * 1440 + m - u.default_timezone

/-- Modelled from the spec: the Timezone/DND Resolver (spec §4.1), absent
from the source tree.  For a user and a target local date it yields the
user's quiet-hours window as absolute UTC intervals: none when the user has
no window configured, one interval when the window does not wrap midnight,
and two (the head and tail of the local day) when it wraps
(`start > end`). -/
def resolveDnd (u : User) (date : Int) : List (Int × Int) :=
  match u.dnd_window_start_local, u.dnd_window_end_local with
  | some st, some en =>
      if en < st then
        [(localToUtc u date 0, localToUtc u date en),
         (localToUtc u date st, localToUtc u date 1440)]
      else
        [(localToUtc u date st, localToUtc u date en)]
  | _, _ => []

/-- The local dates (for a given user's timezone) that the candidate
interval `[start, fin)` touches; the DND resolver is run for each. -/
def localDays (u : User) (start fin : Int) : List Int :=
  let d0 := (start + u.default_timezone).fdiv 1440
  let d1 := (fin - 1 + u.default_timezone).fdiv 1440
  (List.range (d1 - d0 + 1).toNat).map (fun i => d0 + i)

/-- Modelled from the spec: the DND intervals of every prospective attendee
relevant to the candidate interval (spec §4.3 create: "resolves DND for all
prospective attendees"). -/
def candidateDndIntervals (s : State) (uids : List Nat) (start fin : Int) :
    List (Int × Int) :=
  uids.flatMap (fun uid =>
    match s.users.find? (fun u => u.user_id == uid) with
    | some u => (localDays u start fin).flatMap (resolveDnd u)
    | none => [])

/-- A candidate attendee set and an existing event share an attendee
(spec §4.2 rule 1: "for the same attendee set"). -/
def sharesAttendee (s : State) (uids : List Nat) (e : Event) : Bool :=
  uids.any (fun uid =>
    s.attendees.any (fun a => a.event_id == e.event_id && a.user_id == uid))

/-- Modelled from the spec: step 1 of the Conflict Evaluator (spec §4.2):
the existing, non-cancelled events sharing an attendee with the candidate
whose half-open interval intersects the candidate's, excluding the
candidate itself on update. -/
def overlapSet (s : State) (uids : List Nat) (start fin : Int)
    (excludeId : Option Nat) : List Event :=
  s.events.filter (fun e =>
    !(excludeId == some e.event_id) && !(e.status == Status.Cancelled) &&
    sharesAttendee s uids e &&
    overlapsIv (e.start_time_utc, e.end_time_utc) (start, fin))

/-- Outcome of the Conflict Evaluator: accept (with a non-blocking warning
for a soft event during DND) or reject with the rule that fired. -/
inductive Decision where
  | accept (warn : Bool)
  | reject (reason : ConflictReason)
deriving DecidableEq, Repr

/-- Modelled from the spec: rules 2-4 of the Conflict Evaluator
(spec §4.2): hard-hard overlap rejects, a hard candidate in quiet hours
rejects, everything else accepts (soft during DND with a warning). -/
def evaluate (tier : Tier) (overlapping : List Event) (dnd : List (Int × Int))
    (start fin : Int) : Decision :=
  if tier == Tier.Hard && overlapping.any (fun e => e.constraint_level == Tier.Hard) then
    .reject .hardHard
  else if tier == Tier.Hard && dnd.any (fun iv => overlapsIv iv (start, fin)) then
    .reject .quietHours
  else
    .accept (tier == Tier.Soft && dnd.any (fun iv => overlapsIv iv (start, fin)))

/-- Lookup of the current Event row by identifier (first match). -/
def findEvent (s : State) (eventId : Nat) : Option Event :=
  s.events.find? (fun e => e.event_id == eventId)

/-- Lookup of a ChangeRequest row by identifier (first match). -/
def findRequest (s : State) (requestId : Nat) : Option ChangeRequest :=
  s.requests.find? (fun r => r.request_id == requestId)

/-- Modelled from the spec: `create` of the Mutation Coordinator
(spec §4.3), absent from the source tree.  An already-seen idempotency key
is a no-op returning the prior result; otherwise the organizer and group
must exist (`NotFoundError`), the organizer must belong to the group
(`PermissionError`), the time range must be well formed
(`ValidationError`), and the Conflict Evaluator must accept
(`ConflictError` otherwise).  On success a fresh Event at version 1,
`Scheduled`, is persisted, the organizer is auto-added as a `going`
attendee (further supplied attendees as `invited`), a `create` ledger
entry is appended and the key is recorded.  Failures return the state
unchanged. -/
def createEvent (s : State) (key : Nat) (groupId organizerId : Nat)
    (title : String) (start fin : Int) (tier : Tier)
    (attendeeIds : List Nat) : State × Except SchedError Event :=
  match s.idem.lookup key with
  | some prior => (s, .ok prior)
  | none =>
    if (s.users.find? (fun u => u.user_id == organizerId)).isNone then
      (s, .error .NotFoundError)
    else if !(s.groups.contains groupId) then
      (s, .error .NotFoundError)
    else if !(s.memberships.contains (organizerId, groupId)) then
      (s, .error .PermissionError)
    else if fin ≤ start then
      (s, .error .ValidationError)
    else
      let uids := organizerId :: attendeeIds
      let overlapping := overlapSet s uids start fin none
      let dnd := candidateDndIntervals s uids start fin
      match evaluate tier overlapping dnd start fin with
      | .reject r => (s, .error (.ConflictError r))
      | .accept _ =>
        let ev : Event :=
          ⟨s.nextId, groupId, organizerId, title, start, fin, tier, .Scheduled, 1⟩
        let newAtts : List Attendee :=
          ⟨ev.event_id, organizerId, .going⟩ ::
            (attendeeIds.filter (fun uid => !(uid == organizerId))).map
              (fun uid => ⟨ev.event_id, uid, .invited⟩)
        ({ s with
            events := s.events ++ [ev],
            attendees := s.attendees ++ newAtts,
            ledger := s.ledger ++
              [⟨ev.event_id, organizerId, .create, none, some ev, some key⟩],
            idem := (key, ev) :: s.idem,
            nextId := s.nextId + 1 },
         .ok ev)

/-- The partial `changes` of an update applied to an event row; fields the
caller did not supply keep their stored value.  `status` and `version` are
never part of `changes`. -/
def applyChanges (e : Event) (c : Changes) : Event :=
  { e with
      title := c.title.getD e.title,
      start_time_utc := c.start_time_utc.getD e.start_time_utc,
      end_time_utc := c.end_time_utc.getD e.end_time_utc,
      constraint_level := c.constraint_level.getD e.constraint_level }

/-- The user identifiers attending a stored event. -/
def eventAttendeeIds (s : State) (eventId : Nat) : List Nat :=
  (s.attendees.filter (fun a => a.event_id == eventId)).map (fun a => a.user_id)

/-- Modelled from the spec: `update` of the Mutation Coordinator
(spec §4.3), absent from the source tree.  Unknown event is
`NotFoundError`; a caller other than the organizer is `PermissionError`; a
stale `expectedVersion` is `VersionConflictError`; a malformed resulting
time range is `ValidationError`; the Conflict Evaluator re-runs against the
proposed new time/tier with the event itself excluded from the overlap set.
On success the version increments and an `update` ledger entry with
before/after snapshots is appended.  Failures return the state
unchanged. -/
def updateEvent (s : State) (eventId expectedVersion actorId : Nat)
    (c : Changes) : State × Except SchedError Event :=
  match findEvent s eventId with
  | none => (s, .error .NotFoundError)
  | some ev =>
    if actorId ≠ ev.organizer_id then (s, .error .PermissionError)
    else if expectedVersion ≠ ev.version then (s, .error .VersionConflictError)
    else
      let ev' := applyChanges ev c
      if ev'.end_time_utc ≤ ev'.start_time_utc then (s, .error .ValidationError)
      else
        let uids := eventAttendeeIds s eventId
        let overlapping :=
          overlapSet s uids ev'.start_time_utc ev'.end_time_utc (some eventId)
        let dnd := candidateDndIntervals s uids ev'.start_time_utc ev'.end_time_utc
        match evaluate ev'.constraint_level overlapping dnd
            ev'.start_time_utc ev'.end_time_utc with
        | .reject r => (s, .error (.ConflictError r))
        | .accept _ =>
          let ev2 := { ev' with version := ev.version + 1 }
          ({ s with
              events := s.events.map
                (fun e => if e.event_id == eventId then ev2 else e),
              ledger := s.ledger ++
                [⟨eventId, actorId, .update, some ev, some ev2, none⟩] },
           .ok ev2)

/-- Modelled from the spec: `cancel` of the Mutation Coordinator
(spec §4.3), absent from the source tree.  Same permission and
version-match rules as update; on success the status becomes `Cancelled`
(the row is never deleted), the version increments and a `cancel` ledger
entry is appended.  Failures return the state unchanged. -/
def cancelEvent (s : State) (eventId expectedVersion actorId : Nat) :
    State × Except SchedError Event :=
  match findEvent s eventId with
  | none => (s, .error .NotFoundError)
  | some ev =>
    if actorId ≠ ev.organizer_id then (s, .error .PermissionError)
    else if expectedVersion ≠ ev.version then (s, .error .VersionConflictError)
    else
      let ev2 := { ev with status := Status.Cancelled, version := ev.version + 1 }
      ({ s with
          events := s.events.map
            (fun e => if e.event_id == eventId then ev2 else e),
          ledger := s.ledger ++
            [⟨eventId, actorId, .cancel, some ev, some ev2, none⟩] },
       .ok ev2)

/-- Modelled from the spec: `rsvp` of the Mutation Coordinator (spec §4.3),
absent from the source tree.  A user who is not an attendee of the event is
`NotFoundError`; otherwise only that attendee's RSVP status changes, an
`rsvp` ledger entry is appended, and the event rows — version included —
are untouched. -/
def rsvpEvent (s : State) (eventId userId : Nat) (st : RSVPStatus) :
    State × Except SchedError Unit :=
  if !(s.attendees.any (fun a => a.event_id == eventId && a.user_id == userId)) then
    (s, .error .NotFoundError)
  else
    ({ s with
        attendees := s.attendees.map (fun a =>
          if a.event_id == eventId && a.user_id == userId then
            { a with rsvp_status := st }
          else a),
        ledger := s.ledger ++ [⟨eventId, userId, .rsvp, none, none, none⟩] },
     .ok ())

/-- Modelled from the spec: `submit` of the Change-Request Workflow
(spec §4.4), absent from the source tree.  The organizer may not use this
path (`PermissionError`); a fresh request is stored `pending`. -/
def submitRequest (s : State) (eventId proposerId : Nat) (c : Changes) :
    State × Except SchedError ChangeRequest :=
  match findEvent s eventId with
  | none => (s, .error .NotFoundError)
  | some ev =>
    if proposerId = ev.organizer_id then (s, .error .PermissionError)
    else
      let r : ChangeRequest := ⟨s.nextId, eventId, proposerId, c, .pending⟩
      ({ s with requests := s.requests ++ [r], nextId := s.nextId + 1 }, .ok r)

/-- Modelled from the spec: `approve` of the Change-Request Workflow
(spec §4.4), absent from the source tree.  Only the event's organizer may
approve, only a `pending` request can be resolved; approval invokes the
coordinator's `update` with the stored changes and the event's current
version (re-validated fresh).  If that update fails, approval fails and the
state — the `pending` request and the event included — is unchanged;
otherwise the request becomes `approved` and an `approve_change` ledger
entry is appended. -/
def approveRequest (s : State) (requestId organizerId : Nat) :
    State × Except SchedError Event :=
  match findRequest s requestId with
  | none => (s, .error .NotFoundError)
  | some r =>
    if r.state ≠ CRState.pending then (s, .error .ValidationError)
    else
      match findEvent s r.event_id with
      | none => (s, .error .NotFoundError)
      | some ev =>
        if organizerId ≠ ev.organizer_id then (s, .error .PermissionError)
        else
          match updateEvent s r.event_id ev.version organizerId r.changes with
          | (_, .error err) => (s, .error err)
          | (s1, .ok ev2) =>
            ({ s1 with
                requests := s1.requests.map (fun q =>
                  if q.request_id == requestId then { q with state := .approved }
                  else q),
                ledger := s1.ledger ++
                  [⟨r.event_id, organizerId, .approve_change, some ev, some ev2, none⟩] },
             .ok ev2)

/-- Modelled from the spec: `reject` of the Change-Request Workflow
(spec §4.4), absent from the source tree.  The request becomes `rejected`,
a `reject_change` ledger entry is appended, and no Event mutation
occurs. -/
def rejectRequest (s : State) (requestId organizerId : Nat) :
    State × Except SchedError Unit :=
  match findRequest s requestId with
  | none => (s, .error .NotFoundError)
  | some r =>
    if r.state ≠ CRState.pending then (s, .error .ValidationError)
    else
      match findEvent s r.event_id with
      | none => (s, .error .NotFoundError)
      | some ev =>
        if organizerId ≠ ev.organizer_id then (s, .error .PermissionError)
        else
          ({ s with
              requests := s.requests.map (fun q =>
                if q.request_id == requestId then { q with state := .rejected }
                else q),
              ledger := s.ledger ++
                [⟨r.event_id, organizerId, .reject_change, some ev, none, none⟩] },
           .ok ())

/-- One call into the modelled backend, for stating invariants over every
operation at once. -/
inductive Op where
  | opCreate (key groupId organizerId : Nat) (title : String)
      (start fin : Int) (tier : Tier) (attendeeIds : List Nat)
  | opUpdate (eventId expectedVersion actorId : Nat) (c : Changes)
  | opCancel (eventId expectedVersion actorId : Nat)
  | opRsvp (eventId userId : Nat) (st : RSVPStatus)
  | opSubmit (eventId proposerId : Nat) (c : Changes)
  | opApprove (requestId organizerId : Nat)
  | opReject (requestId organizerId : Nat)
deriving Repr

/-- The state after one call (the state an operation returns, whether the
call succeeded or failed). -/
def stepOp (s : State) (op : Op) : State :=
  match op with
  | .opCreate key gid oid t st fin tier atts =>
      (createEvent s key gid oid t st fin tier atts).1
  | .opUpdate eid v aid c => (updateEvent s eid v aid c).1
  | .opCancel eid v aid => (cancelEvent s eid v aid).1
  | .opRsvp eid uid st => (rsvpEvent s eid uid st).1
  | .opSubmit eid pid c => (submitRequest s eid pid c).1
  | .opApprove rid oid => (approveRequest s rid oid).1
  | .opReject rid oid => (rejectRequest s rid oid).1

/-- Concrete scenario user A of spec §8: timezone UTC-5, quiet hours
22:00-07:00 local. -/
def userA : User := ⟨1, -300, some 1320, some 420⟩

/-- Concrete scenario user B: timezone UTC, no quiet hours. -/
def userB : User := ⟨2, 0, none, none⟩

/-- Concrete scenario store: users A and B, one group both belong to,
no events yet. -/
def demoState : State :=
  ⟨[userA, userB], [10], [(1, 10), (2, 10)], [], [], [], [], [], 100⟩

/-- Scenario event: a Hard event of user B on group 10, UTC minutes
[1000, 1060), version 1. -/
def demoEvent : Event :=
  ⟨100, 10, 2, "standup", 1000, 1060, .Hard, .Scheduled, 1⟩

/-- Scenario store holding `demoEvent` with user B attending, plus a
pending change request by user A proposing a hard-hard conflicting move. -/
def demoState2 : State :=
  ⟨[userA, userB], [10], [(1, 10), (2, 10)],
   [demoEvent, ⟨101, 10, 2, "review", 2000, 2060, .Hard, .Scheduled, 1⟩],
   [⟨100, 2, .going⟩, ⟨101, 2, .going⟩],
   [⟨50, 101, 1, ⟨none, some 1030, some 1090, none⟩, .pending⟩],
   [], [], 200⟩

/-- Scenario call: user B creates a Soft event on group 10 with idempotency
key 7 and no supplied attendees. -/
def demoCreate : State × Except SchedError Event :=
  createEvent demoState 7 10 2 "dinner" 1000 1060 .Soft []

/-- The event `demoCreate` persists. -/
def demoCreatedEvent : Event :=
  ⟨100, 10, 2, "dinner", 1000, 1060, .Soft, .Scheduled, 1⟩

end Backend

/-! ## General lemmas -/

theorem find?_append_some {α : Type} (p : α → Bool) (l₁ l₂ : List α) (a : α)
    (h : l₁.find? p = some a) : (l₁ ++ l₂).find? p = some a := by
  induction l₁ with
  | nil => simp [List.find?] at h
  | cons x t ih =>
    rw [List.cons_append]
    rw [List.find?] at h ⊢
    cases hx : p x with
    | true => simpa [hx] using h
    | false =>
      rw [hx] at h
      simpa [hx] using ih h

theorem find?_map_of_pred_inv {α : Type} (f : α → α) (p : α → Bool)
    (hp : ∀ x, p (f x) = p x) (l : List α) :
    (l.map f).find? p = (l.find? p).map f := by
  induction l with
  | nil => rfl
  | cons a t ih =>
    rw [List.map_cons, List.find?, List.find?, hp a]
    cases h : p a with
    | true => simp
    | false => simpa using ih

theorem isSameDay_iff (a b : Frontend.LocalDate) :
    Frontend.isSameDay a b = true ↔ a = b := by
  cases a; cases b
  simp [Frontend.isSameDay, Frontend.LocalDate.mk.injEq, Bool.and_eq_true,
    beq_iff_eq, and_assoc]

/-! ## Claims about the frontend code -/

/-- Claim C9: for every list of events and every day, the per-day event
selection used by the week, month and day calendar views agrees with
`getEventsForDay` and returns exactly the events whose status is not
`"Cancelled"` and whose `start_time_utc` falls on that day in local time;
a cancelled event is never rendered in any view. -/
theorem day_view_selection :
    (∀ (toLocal : Nat → Frontend.LocalDate) (events : List Frontend.JsEvent)
        (day : Frontend.LocalDate),
        Frontend.weekViewDayEvents toLocal events day =
          Frontend.getEventsForDay toLocal events day ∧
        Frontend.monthViewEventsForDay toLocal events day =
          Frontend.getEventsForDay toLocal events day ∧
        Frontend.dayViewDayEvents toLocal events day =
          Frontend.getEventsForDay toLocal events day) ∧
    (∀ (toLocal : Nat → Frontend.LocalDate) (events : List Frontend.JsEvent)
        (day : Frontend.LocalDate) (e : Frontend.JsEvent),
        e ∈ Frontend.getEventsForDay toLocal events day ↔
          e ∈ events ∧ e.status ≠ "Cancelled" ∧ toLocal e.start_time_utc = day) ∧
    (∀ (toLocal : Nat → Frontend.LocalDate) (events : List Frontend.JsEvent)
        (day : Frontend.LocalDate) (e : Frontend.JsEvent),
        e.status = "Cancelled" →
          e ∉ Frontend.getEventsForDay toLocal events day ∧
          e ∉ Frontend.weekViewDayEvents toLocal events day ∧
          e ∉ Frontend.monthViewEventsForDay toLocal events day ∧
          e ∉ Frontend.dayViewDayEvents toLocal events day) := by
  have hmem : ∀ (toLocal : Nat → Frontend.LocalDate)
      (events : List Frontend.JsEvent) (day : Frontend.LocalDate)
      (e : Frontend.JsEvent),
      e ∈ Frontend.getEventsForDay toLocal events day ↔
        e ∈ events ∧ e.status ≠ "Cancelled" ∧ toLocal e.start_time_utc = day := by
    intro toLocal events day e
    unfold Frontend.getEventsForDay
    rw [List.mem_filter]
    by_cases hc : e.status = "Cancelled"
    · simp [hc]
    · have hcb : (e.status == "Cancelled") = false := by
        simpa using hc
      simp [hcb, hc, isSameDay_iff]
  refine ⟨fun _ _ _ => ⟨rfl, rfl, rfl⟩, hmem, ?_⟩
  intro toLocal events day e hc
  have hnot : e ∉ Frontend.getEventsForDay toLocal events day := by
    rw [hmem]
    intro h
    exact h.2.1 hc
  exact ⟨hnot, hnot, hnot, hnot⟩

/-- Claim C9 witness: a concrete cancelled event is excluded and a concrete
scheduled one on the queried day is included. -/
theorem day_view_selection_witness :
    (⟨1, 10, "a", "Cancelled", 0⟩ : Frontend.JsEvent) ∉
      Frontend.getEventsForDay (fun _ => ⟨2024, 0, 1⟩)
        [⟨1, 10, "a", "Cancelled", 0⟩, ⟨2, 10, "b", "Scheduled", 0⟩]
        ⟨2024, 0, 1⟩ ∧
    (⟨2, 10, "b", "Scheduled", 0⟩ : Frontend.JsEvent) ∈
      Frontend.getEventsForDay (fun _ => ⟨2024, 0, 1⟩)
        [⟨1, 10, "a", "Cancelled", 0⟩, ⟨2, 10, "b", "Scheduled", 0⟩]
        ⟨2024, 0, 1⟩ := by
  constructor
  · exact (day_view_selection.2.2 _ _ _ _ rfl).1
  · exact (day_view_selection.2.1 _ _ _ _).mpr (by simp)

/-- Claim C10 counterexample: at status 404 with body `{"detail": ""}` the
`detail` field is present, yet the thrown message is the fallback
`"Request failed: 404"`, not the detail field — JavaScript `||` treats the
empty string as falsy. -/
theorem request_outcome_counterexample :
    (⟨404, some ⟨some ""⟩⟩ : Frontend.HttpResponse).jsonBody = some ⟨some ""⟩ ∧
    Frontend.requestOutcome ⟨404, some ⟨some ""⟩⟩ =
      .thrown ("Request failed: 404") 404 ∧
    "Request failed: 404" ≠ "" := by
  refine ⟨rfl, ?_, by decide⟩
  rfl

/-- Claim C10 (amended): the API client's `request` helper returns null
when the status is 204; returns the parsed JSON body when the response is
ok and not 204; and otherwise throws an Error whose `status` field equals
the HTTP status code and whose message is the body's `detail` field when
present and non-empty (else `"Request failed: <status>"`); it never
resolves to a value for a non-ok response. -/
theorem request_outcome_spec (res : Frontend.HttpResponse) :
    (res.status = 204 → Frontend.requestOutcome res = .success none) ∧
    (Frontend.httpOk res.status = true → res.status ≠ 204 →
      ∀ b, res.jsonBody = some b →
        Frontend.requestOutcome res = .success (some b)) ∧
    (Frontend.httpOk res.status = false →
      ((∃ d, (res.jsonBody.getD ⟨none⟩).detail = some d ∧ d ≠ "" ∧
          Frontend.requestOutcome res = .thrown d res.status) ∨
        (((res.jsonBody.getD ⟨none⟩).detail = some "" ∨
            (res.jsonBody.getD ⟨none⟩).detail = none) ∧
          Frontend.requestOutcome res =
            .thrown ("Request failed: " ++ toString res.status) res.status)) ∧
      ∀ v, Frontend.requestOutcome res ≠ .success v) := by
  obtain ⟨st, body⟩ := res
  refine ⟨?_, ?_, ?_⟩
  · rintro rfl
    rfl
  · intro hok h204 b hb
    have hb' : body = some b := hb
    have h204b : (st == 204) = false := by simpa using h204
    simp [Frontend.requestOutcome, hok, h204b, hb']
  · intro hok
    have hmain : Frontend.requestOutcome ⟨st, body⟩ =
        .thrown (match (body.getD ⟨none⟩).detail with
          | some d => if d == "" then "Request failed: " ++ toString st else d
          | none => "Request failed: " ++ toString st) st := by
      simp [Frontend.requestOutcome, hok]
    constructor
    · cases hdet : (body.getD ⟨none⟩).detail with
      | none =>
        right
        refine ⟨Or.inr rfl, ?_⟩
        rw [hmain, hdet]
      | some d =>
        by_cases hd : d = ""
        · right
          refine ⟨Or.inl (by rw [hd]), ?_⟩
          rw [hmain, hdet]
          simp [hd]
        · left
          refine ⟨d, rfl, hd, ?_⟩
          rw [hmain, hdet]
          have hdb : (d == "") = false := by simpa using hd
          simp [hdb]
    · intro v hv
      rw [hmain] at hv
      exact Frontend.RequestOutcome.noConfusion hv

/-! ## Lemmas about the modelled backend -/

open Backend in
theorem createEvent_ok_elim (s : State) (key gid oid : Nat) (title : String)
    (start fin : Int) (tier : Tier) (atts : List Nat) (s' : State) (ev : Event)
    (hfresh : s.idem.lookup key = none)
    (h : createEvent s key gid oid title start fin tier atts = (s', .ok ev)) :
    ev = ⟨s.nextId, gid, oid, title, start, fin, tier, .Scheduled, 1⟩ ∧
    s' = { s with
      events := s.events ++ [ev],
      attendees := s.attendees ++
        (⟨s.nextId, oid, .going⟩ ::
          (atts.filter (fun uid => !(uid == oid))).map
            (fun uid => ⟨s.nextId, uid, .invited⟩)),
      ledger := s.ledger ++ [⟨s.nextId, oid, .create, none, some ev, some key⟩],
      idem := (key, ev) :: s.idem,
      nextId := s.nextId + 1 } := by
  simp only [createEvent, hfresh] at h
  split at h
  · exact absurd (congrArg Prod.snd h) (by simp)
  · split at h
    · exact absurd (congrArg Prod.snd h) (by simp)
    · split at h
      · exact absurd (congrArg Prod.snd h) (by simp)
      · split at h
        · exact absurd (congrArg Prod.snd h) (by simp)
        · split at h
          · exact absurd (congrArg Prod.snd h) (by simp)
          · simp only [Prod.mk.injEq, Except.ok.injEq] at h
            obtain ⟨h1, h2⟩ := h
            subst h2
            subst h1
            exact ⟨rfl, rfl⟩

/-- Claim C10 witness: at status 500 with body `{"detail": "boom"}` the
helper throws an Error with message `"boom"` and status 500, and resolves
to no value. -/
theorem request_outcome_spec_witness :
    Frontend.requestOutcome ⟨500, some ⟨some "boom"⟩⟩ = .thrown "boom" 500 ∧
    ∀ v, Frontend.requestOutcome ⟨500, some ⟨some "boom"⟩⟩ ≠ .success v := by
  have h := (request_outcome_spec ⟨500, some ⟨some "boom"⟩⟩).2.2 (by decide)
  refine ⟨?_, h.2⟩
  rcases h.1 with ⟨d, hd, _, hthr⟩ | ⟨hdet, _⟩
  · have hd' : (some "boom" : Option String) = some d := hd
    have hdb : d = "boom" := (Option.some.inj hd').symm
    rw [hdb] at hthr
    exact hthr
  · have hdet' : ((some "boom" : Option String) = some "" ∨
        (some "boom" : Option String) = none) := hdet
    rcases hdet' with h1 | h1 <;> exact absurd h1 (by decide)

/-- Claim C5: every successful `create(groupId, organizerId, title, start,
end, tier)` call persists an event at version 1 whose attendee set contains
the organizer with RSVP status `going`, inserted automatically — also when
the caller supplies no attendees. -/
theorem create_initializes (s : Backend.State) (key gid oid : Nat)
    (title : String) (start fin : Int) (tier : Backend.Tier)
    (atts : List Nat) (s' : Backend.State) (ev : Backend.Event)
    (hfresh : s.idem.lookup key = none)
    (h : Backend.createEvent s key gid oid title start fin tier atts =
      (s', .ok ev)) :
    ev.version = 1 ∧ ev.organizer_id = oid ∧ ev ∈ s'.events ∧
    (⟨ev.event_id, oid, .going⟩ : Backend.Attendee) ∈ s'.attendees := by
  obtain ⟨hev, hs⟩ :=
    createEvent_ok_elim s key gid oid title start fin tier atts s' ev hfresh h
  subst hs
  refine ⟨by rw [hev], by rw [hev], by simp, ?_⟩
  rw [hev]
  simp

/-- Claim C5 witness: user B's concrete create call stores the event at
version 1 and auto-adds user B as a `going` attendee although the supplied
attendee list is empty. -/
theorem create_initializes_witness :
    Backend.demoState.idem.lookup 7 = none ∧
    (Backend.demoCreatedEvent.version = 1 ∧
     Backend.demoCreatedEvent.organizer_id = 2 ∧
     Backend.demoCreatedEvent ∈ Backend.demoCreate.1.events ∧
     (⟨Backend.demoCreatedEvent.event_id, 2, .going⟩ : Backend.Attendee) ∈
       Backend.demoCreate.1.attendees) :=
  ⟨rfl, create_initializes Backend.demoState 7 10 2 "dinner" 1000 1060
    Backend.Tier.Soft [] Backend.demoCreate.1 Backend.demoCreatedEvent rfl rfl⟩

/-- Claim C6: invoking `create` twice with the same idempotency key and the
same target state yields exactly one Event and exactly one ledger entry:
the repeated call is a no-op returning the prior result and changing
nothing. -/
theorem create_idempotent (s : Backend.State) (key gid oid : Nat)
    (title : String) (start fin : Int) (tier : Backend.Tier)
    (atts : List Nat) (s' : Backend.State) (ev : Backend.Event)
    (hfresh : s.idem.lookup key = none)
    (h : Backend.createEvent s key gid oid title start fin tier atts =
      (s', .ok ev)) :
    Backend.createEvent s' key gid oid title start fin tier atts =
      (s', .ok ev) ∧
    s'.events.length = s.events.length + 1 ∧
    s'.ledger.length = s.ledger.length + 1 := by
  obtain ⟨hev, hs⟩ :=
    createEvent_ok_elim s key gid oid title start fin tier atts s' ev hfresh h
  subst hs
  refine ⟨?_, by simp, by simp⟩
  rw [Backend.createEvent]
  simp [List.lookup]

/-- Claim C6 witness: repeating user B's concrete create call with key 7
returns the prior result, and the first call added exactly one event and
one ledger entry. -/
theorem create_idempotent_witness :
    Backend.demoState.idem.lookup 7 = none ∧
    (Backend.createEvent Backend.demoCreate.1 7 10 2 "dinner" 1000 1060
        .Soft [] = (Backend.demoCreate.1, .ok Backend.demoCreatedEvent) ∧
     Backend.demoCreate.1.events.length = Backend.demoState.events.length + 1 ∧
     Backend.demoCreate.1.ledger.length = Backend.demoState.ledger.length + 1) :=
  ⟨rfl, create_idempotent Backend.demoState 7 10 2 "dinner" 1000 1060
    Backend.Tier.Soft [] Backend.demoCreate.1 Backend.demoCreatedEvent rfl rfl⟩

open Backend in
theorem findEvent_replace (s : State) (eventId : Nat) (ev ev2 : Event)
    (hfind : findEvent s eventId = some ev)
    (hid : ev2.event_id = ev.event_id) :
    (s.events.map (fun e => if e.event_id == eventId then ev2 else e)).find?
      (fun e => e.event_id == eventId) = some ev2 := by
  have hfind' : s.events.find? (fun e => e.event_id == eventId) = some ev := hfind
  have hpev : (ev.event_id == eventId) = true :=
    @List.find?_some Event (fun e => e.event_id == eventId) ev s.events hfind'
  have hp : ∀ x : Event,
      ((if x.event_id == eventId then ev2 else x).event_id == eventId) =
        (x.event_id == eventId) := by
    intro x
    by_cases hx : (x.event_id == eventId) = true
    · rw [if_pos hx, hid, hpev, hx]
    · rw [if_neg (by simp [hx])]
  rw [find?_map_of_pred_inv _ _ hp, hfind']
  show some (if ev.event_id == eventId then ev2 else ev) = some ev2
  rw [if_pos hpev]

/-- Claim C3: for every stored event with version `v` and every update or
cancel call by the organizer presenting `expectedVersion e`: if `e ≠ v` the
call fails with `VersionConflictError`, produces no ledger entry and leaves
the state unchanged; and every succeeding call had `e = v` and leaves the
stored version at `v + 1`. -/
theorem optimistic_lock (s : Backend.State) (eventId : Nat)
    (ev : Backend.Event) (expected actor : Nat) (c : Backend.Changes)
    (hfind : Backend.findEvent s eventId = some ev)
    (hact : actor = ev.organizer_id) :
    (expected ≠ ev.version →
      Backend.updateEvent s eventId expected actor c =
        (s, .error .VersionConflictError) ∧
      Backend.cancelEvent s eventId expected actor =
        (s, .error .VersionConflictError)) ∧
    (∀ (s' : Backend.State) (ev' : Backend.Event),
      Backend.updateEvent s eventId expected actor c = (s', .ok ev') →
      expected = ev.version ∧ ev'.version = ev.version + 1 ∧
      Backend.findEvent s' eventId = some ev') ∧
    (∀ (s' : Backend.State) (ev' : Backend.Event),
      Backend.cancelEvent s eventId expected actor = (s', .ok ev') →
      expected = ev.version ∧ ev'.version = ev.version + 1 ∧
      Backend.findEvent s' eventId = some ev') := by
  subst hact
  refine ⟨?_, ?_, ?_⟩
  · intro hv
    constructor
    · rw [Backend.updateEvent, hfind]
      simp [hv]
    · rw [Backend.cancelEvent, hfind]
      simp [hv]
  · intro s' ev' h
    simp only [Backend.updateEvent, hfind] at h
    split at h
    · exact absurd (congrArg Prod.snd h) (by simp)
    · split at h
      · exact absurd (congrArg Prod.snd h) (by simp)
      · rename_i hvne
        have hv : expected = ev.version := not_not.mp hvne
        split at h
        · exact absurd (congrArg Prod.snd h) (by simp)
        · split at h
          · exact absurd (congrArg Prod.snd h) (by simp)
          · simp only [Prod.mk.injEq, Except.ok.injEq] at h
            obtain ⟨h1, h2⟩ := h
            subst h2
            subst h1
            exact ⟨hv, rfl, findEvent_replace s eventId ev _ hfind rfl⟩
  · intro s' ev' h
    simp only [Backend.cancelEvent, hfind] at h
    split at h
    · exact absurd (congrArg Prod.snd h) (by simp)
    · split at h
      · exact absurd (congrArg Prod.snd h) (by simp)
      · rename_i hvne
        have hv : expected = ev.version := not_not.mp hvne
        simp only [Prod.mk.injEq, Except.ok.injEq] at h
        obtain ⟨h1, h2⟩ := h
        subst h2
        subst h1
        exact ⟨hv, rfl, findEvent_replace s eventId ev _ hfind rfl⟩

/-- Claim C3 witness: at the concrete store holding `demoEvent` (version
1), an organizer update or cancel presenting version 5 fails with
`VersionConflictError` leaving the state unchanged, and the concrete
succeeding cancel presenting version 1 stores version 2. -/
theorem optimistic_lock_witness :
    Backend.findEvent Backend.demoState2 100 = some Backend.demoEvent ∧
    (Backend.updateEvent Backend.demoState2 100 5 2 ⟨none, none, none, none⟩ =
      (Backend.demoState2, .error .VersionConflictError) ∧
     Backend.cancelEvent Backend.demoState2 100 5 2 =
      (Backend.demoState2, .error .VersionConflictError)) ∧
    ((1 : Nat) = Backend.demoEvent.version ∧
     (⟨100, 10, 2, "standup", 1000, 1060, .Hard, .Cancelled, 2⟩ :
        Backend.Event).version = Backend.demoEvent.version + 1 ∧
     Backend.findEvent (Backend.cancelEvent Backend.demoState2 100 1 2).1 100 =
       some ⟨100, 10, 2, "standup", 1000, 1060, .Hard, .Cancelled, 2⟩) := by
  have h := optimistic_lock Backend.demoState2 100 Backend.demoEvent 5 2
    ⟨none, none, none, none⟩ rfl rfl
  have h1 := optimistic_lock Backend.demoState2 100 Backend.demoEvent 1 2
    ⟨none, none, none, none⟩ rfl rfl
  exact ⟨rfl, h.1 (by decide),
    h1.2.2 (Backend.cancelEvent Backend.demoState2 100 1 2).1
      ⟨100, 10, 2, "standup", 1000, 1060, .Hard, .Cancelled, 2⟩ rfl⟩

/-- Claim C8: for every event and every attendee of it,
`rsvp(eventId, userId, status)` changes only that attendee's RSVP status
and appends an `rsvp` ledger entry, leaving the event rows — version
included — and everything else unchanged; it fails with `NotFoundError`
when the user is not an attendee of the event. -/
theorem rsvp_frame (s : Backend.State) (eventId userId : Nat)
    (st : Backend.RSVPStatus) :
    ((∃ a ∈ s.attendees, a.event_id = eventId ∧ a.user_id = userId) →
      ∃ s', Backend.rsvpEvent s eventId userId st = (s', .ok ()) ∧
        s'.events = s.events ∧ s'.requests = s.requests ∧
        s'.idem = s.idem ∧ s'.users = s.users ∧
        s'.ledger = s.ledger ++ [⟨eventId, userId, .rsvp, none, none, none⟩] ∧
        s'.attendees.length = s.attendees.length ∧
        (∀ (i : Nat) (h1 : i < s.attendees.length)
            (h2 : i < s'.attendees.length),
          (s'.attendees[i].event_id = s.attendees[i].event_id ∧
           s'.attendees[i].user_id = s.attendees[i].user_id) ∧
          (s.attendees[i].event_id = eventId ∧ s.attendees[i].user_id = userId →
            s'.attendees[i].rsvp_status = st) ∧
          (¬(s.attendees[i].event_id = eventId ∧
              s.attendees[i].user_id = userId) →
            s'.attendees[i] = s.attendees[i]))) ∧
    ((∀ a ∈ s.attendees, ¬(a.event_id = eventId ∧ a.user_id = userId)) →
      Backend.rsvpEvent s eventId userId st = (s, .error .NotFoundError)) := by
  constructor
  · rintro ⟨a, ha, hae, hau⟩
    have hany : s.attendees.any
        (fun a => a.event_id == eventId && a.user_id == userId) = true := by
      rw [List.any_eq_true]
      exact ⟨a, ha, by simp [hae, hau]⟩
    have hcall : Backend.rsvpEvent s eventId userId st =
        ({ s with
            attendees := s.attendees.map (fun a =>
              if a.event_id == eventId && a.user_id == userId then
                { a with rsvp_status := st }
              else a),
            ledger := s.ledger ++
              [⟨eventId, userId, .rsvp, none, none, none⟩] }, .ok ()) := by
      rw [Backend.rsvpEvent, hany]
      rfl
    refine ⟨_, hcall, rfl, rfl, rfl, rfl, rfl, by simp, ?_⟩
    intro i h1 h2
    by_cases hc1 : s.attendees[i].event_id = eventId <;>
      by_cases hc2 : s.attendees[i].user_id = userId <;>
        simp [List.getElem_map, hc1, hc2]
  · intro hnone
    have hany : s.attendees.any
        (fun a => a.event_id == eventId && a.user_id == userId) = false := by
      rw [List.any_eq_false]
      intro a ha
      have := hnone a ha
      simp only [Bool.and_eq_true, beq_iff_eq]
      exact fun hcontra => this ⟨hcontra.1, hcontra.2⟩
    rw [Backend.rsvpEvent, hany]
    rfl

/-- Claim C8 witness: at the concrete store, user B RSVPs `maybe` to the
event they attend; the call succeeds and leaves the event rows unchanged,
and user A (no attendee row for event 100) gets `NotFoundError`. -/
theorem rsvp_frame_witness :
    (∃ a ∈ Backend.demoState2.attendees, a.event_id = 100 ∧ a.user_id = 2) ∧
    (∃ s', Backend.rsvpEvent Backend.demoState2 100 2 .maybe = (s', .ok ()) ∧
      s'.events = Backend.demoState2.events) ∧
    Backend.rsvpEvent Backend.demoState2 100 1 .maybe =
      (Backend.demoState2, .error .NotFoundError) := by
  have hex : ∃ a ∈ Backend.demoState2.attendees,
      a.event_id = 100 ∧ a.user_id = 2 :=
    ⟨⟨100, 2, .going⟩, by decide, rfl, rfl⟩
  obtain ⟨s', hcall, hev, _⟩ := (rsvp_frame Backend.demoState2 100 2 .maybe).1 hex
  refine ⟨hex, ⟨s', hcall, hev⟩, ?_⟩
  exact (rsvp_frame Backend.demoState2 100 1 .maybe).2 (by decide)

/-- Claim C7: for every pending change request, if approval's underlying
`update` call fails, the approval itself fails with that error and the
state is returned unchanged: the request remains `pending` and the target
event is untouched. -/
theorem approve_failure (s : Backend.State) (rid oid : Nat)
    (r : Backend.ChangeRequest) (ev : Backend.Event) (err : Backend.SchedError)
    (hr : Backend.findRequest s rid = some r) (hp : r.state = .pending)
    (he : Backend.findEvent s r.event_id = some ev)
    (ho : oid = ev.organizer_id)
    (hfail : (Backend.updateEvent s r.event_id ev.version oid r.changes).2 =
      .error err) :
    Backend.approveRequest s rid oid = (s, .error err) := by
  subst ho
  have hu : Backend.updateEvent s r.event_id ev.version ev.organizer_id
      r.changes =
      ((Backend.updateEvent s r.event_id ev.version ev.organizer_id
        r.changes).1, .error err) := by
    rw [← hfail]
  simp only [Backend.approveRequest, hr]
  rw [if_neg (show ¬(r.state ≠ Backend.CRState.pending) by simp [hp])]
  simp only [he]
  rw [if_neg (show ¬(ev.organizer_id ≠ ev.organizer_id) by simp)]
  rw [hu]

/-- Claim C7 witness: at the concrete store, approving the pending request
whose proposed move hard-hard conflicts fails with that `ConflictError`
and returns the store unchanged, the request still pending. -/
theorem approve_failure_witness :
    Backend.findRequest Backend.demoState2 50 =
      some ⟨50, 101, 1, ⟨none, some 1030, some 1090, none⟩, .pending⟩ ∧
    Backend.approveRequest Backend.demoState2 50 2 =
      (Backend.demoState2, .error (.ConflictError .hardHard)) := by
  refine ⟨rfl, ?_⟩
  exact approve_failure Backend.demoState2 50 2
    ⟨50, 101, 1, ⟨none, some 1030, some 1090, none⟩, .pending⟩
    ⟨101, 10, 2, "review", 2000, 2060, .Hard, .Scheduled, 1⟩
    (.ConflictError .hardHard) rfl rfl rfl rfl rfl

open Backend in
theorem evaluate_hard_overlap_reject (overlapping : List Event)
    (dnd : List (Int × Int)) (start fin : Int) (b : Event)
    (hb : b ∈ overlapping) (hbt : b.constraint_level = .Hard) :
    evaluate .Hard overlapping dnd start fin = .reject .hardHard := by
  rw [evaluate, if_pos]
  simp only [Bool.and_eq_true, beq_self_eq_true, true_and, List.any_eq_true]
  exact ⟨b, hb, by simp [hbt]⟩

open Backend in
theorem evaluate_hard_dnd_reject (overlapping : List Event)
    (dnd : List (Int × Int)) (start fin : Int)
    (hnoh : ∀ e ∈ overlapping, e.constraint_level ≠ .Hard)
    (hd : dnd.any (fun iv => overlapsIv iv (start, fin)) = true) :
    evaluate .Hard overlapping dnd start fin = .reject .quietHours := by
  have hany : overlapping.any (fun e => e.constraint_level == Tier.Hard) = false := by
    rw [List.any_eq_false]
    intro e he
    simpa using hnoh e he
  rw [evaluate, if_neg (by simp [hany]), if_pos (by simp [hd])]

open Backend in
theorem evaluate_soft_accepts (overlapping : List Event)
    (dnd : List (Int × Int)) (start fin : Int) :
    evaluate .Soft overlapping dnd start fin =
      .accept (dnd.any (fun iv => overlapsIv iv (start, fin))) := by
  rw [evaluate, if_neg (by simp), if_neg (by simp)]
  simp

/-- Claim C1: cancelled events are excluded from the overlap set, and for a
pair of `Hard` events sharing an attendee with overlapping half-open
`[start,end)` intervals, both creating and updating the second event fail
with `ConflictError` (hard-hard conflict). -/
theorem hard_hard_conflict :
    (∀ (s : Backend.State) (uids : List Nat) (start fin : Int)
        (ex : Option Nat) (e : Backend.Event), e.status = .Cancelled →
        e ∉ Backend.overlapSet s uids start fin ex) ∧
    (∀ (s : Backend.State) (key gid oid : Nat) (title : String)
        (start fin : Int) (atts : List Nat) (u : Backend.User)
        (b : Backend.Event),
        s.idem.lookup key = none →
        s.users.find? (fun x => x.user_id == oid) = some u →
        s.groups.contains gid = true →
        s.memberships.contains (oid, gid) = true →
        start < fin →
        b ∈ s.events → b.status ≠ .Cancelled → b.constraint_level = .Hard →
        Backend.sharesAttendee s (oid :: atts) b = true →
        Backend.overlapsIv (b.start_time_utc, b.end_time_utc)
          (start, fin) = true →
        Backend.createEvent s key gid oid title start fin .Hard atts =
          (s, .error (.ConflictError .hardHard))) ∧
    (∀ (s : Backend.State) (eventId v a : Nat) (c : Backend.Changes)
        (ev b : Backend.Event),
        Backend.findEvent s eventId = some ev →
        a = ev.organizer_id → v = ev.version →
        (Backend.applyChanges ev c).constraint_level = .Hard →
        (Backend.applyChanges ev c).start_time_utc <
          (Backend.applyChanges ev c).end_time_utc →
        b ∈ s.events → b.event_id ≠ eventId → b.status ≠ .Cancelled →
        b.constraint_level = .Hard →
        Backend.sharesAttendee s (Backend.eventAttendeeIds s eventId) b = true →
        Backend.overlapsIv (b.start_time_utc, b.end_time_utc)
          ((Backend.applyChanges ev c).start_time_utc,
           (Backend.applyChanges ev c).end_time_utc) = true →
        Backend.updateEvent s eventId v a c =
          (s, .error (.ConflictError .hardHard))) := by
  refine ⟨?_, ?_, ?_⟩
  · intro s uids start fin ex e hcanc hmem
    rw [Backend.overlapSet, List.mem_filter] at hmem
    simp [hcanc] at hmem
  · intro s key gid oid title start fin atts u b hfresh huser hgrp hmem htime
      hb hbc hbt hshare hover
    have hoverb : b ∈ Backend.overlapSet s (oid :: atts) start fin none := by
      rw [Backend.overlapSet, List.mem_filter]
      refine ⟨hb, ?_⟩
      simp only [Bool.and_eq_true]
      exact ⟨⟨⟨by simp, by simp [hbc]⟩, hshare⟩, hover⟩
    have heval := evaluate_hard_overlap_reject
      (Backend.overlapSet s (oid :: atts) start fin none)
      (Backend.candidateDndIntervals s (oid :: atts) start fin)
      start fin b hoverb hbt
    simp only [Backend.createEvent, hfresh, huser, Option.isNone_some,
      hgrp, hmem, Bool.not_true, Bool.false_eq_true, if_false, heval]
    rw [if_neg (not_le.mpr htime)]
  · intro s eventId v a c ev b hfind hact hv htier htime hb hbne hbc hbt
      hshare hover
    subst hact
    subst hv
    have hoverb : b ∈ Backend.overlapSet s (Backend.eventAttendeeIds s eventId)
        (Backend.applyChanges ev c).start_time_utc
        (Backend.applyChanges ev c).end_time_utc (some eventId) := by
      rw [Backend.overlapSet, List.mem_filter]
      refine ⟨hb, ?_⟩
      simp only [Bool.and_eq_true]
      refine ⟨⟨⟨?_, by simp [hbc]⟩, hshare⟩, hover⟩
      simp only [Bool.not_eq_true']
      rw [beq_eq_false_iff_ne]
      intro hcontra
      exact hbne (by simpa using (Option.some.inj hcontra).symm)
    have heval := evaluate_hard_overlap_reject
      (Backend.overlapSet s (Backend.eventAttendeeIds s eventId)
        (Backend.applyChanges ev c).start_time_utc
        (Backend.applyChanges ev c).end_time_utc (some eventId))
      (Backend.candidateDndIntervals s (Backend.eventAttendeeIds s eventId)
        (Backend.applyChanges ev c).start_time_utc
        (Backend.applyChanges ev c).end_time_utc)
      (Backend.applyChanges ev c).start_time_utc
      (Backend.applyChanges ev c).end_time_utc b hoverb hbt
    simp only [Backend.updateEvent, hfind]
    rw [if_neg (show ¬(ev.organizer_id ≠ ev.organizer_id) by simp)]
    rw [if_neg (show ¬(ev.version ≠ ev.version) by simp)]
    rw [if_neg (not_le.mpr htime)]
    rw [show Backend.evaluate (Backend.applyChanges ev c).constraint_level
        (Backend.overlapSet s (Backend.eventAttendeeIds s eventId)
          (Backend.applyChanges ev c).start_time_utc
          (Backend.applyChanges ev c).end_time_utc (some eventId))
        (Backend.candidateDndIntervals s (Backend.eventAttendeeIds s eventId)
          (Backend.applyChanges ev c).start_time_utc
          (Backend.applyChanges ev c).end_time_utc)
        (Backend.applyChanges ev c).start_time_utc
        (Backend.applyChanges ev c).end_time_utc = .reject .hardHard from
      htier ▸ heval]

/-- Claim C1 witness: at the concrete store, an overlapping second Hard
event for user B is rejected hard-hard on create and on update, and a
concrete cancelled event is not in the overlap set. -/
theorem hard_hard_conflict_witness :
    (⟨99, 10, 2, "x", 1000, 1060, .Hard, .Cancelled, 1⟩ : Backend.Event) ∉
      Backend.overlapSet Backend.demoState2 [2] 1000 1060 none ∧
    Backend.createEvent Backend.demoState2 7 10 2 "clash" 1030 1090 .Hard [] =
      (Backend.demoState2, .error (.ConflictError .hardHard)) ∧
    Backend.updateEvent Backend.demoState2 101 1 2
      ⟨none, some 1030, some 1090, none⟩ =
      (Backend.demoState2, .error (.ConflictError .hardHard)) := by
  refine ⟨hard_hard_conflict.1 _ _ _ _ _ _ rfl, ?_, ?_⟩
  · exact hard_hard_conflict.2.1 Backend.demoState2 7 10 2 "clash" 1030 1090 []
      Backend.userB Backend.demoEvent rfl rfl rfl rfl (by decide)
      (by decide) (by decide) rfl rfl rfl
  · exact hard_hard_conflict.2.2 Backend.demoState2 101 1 2
      ⟨none, some 1030, some 1090, none⟩
      ⟨101, 10, 2, "review", 2000, 2060, .Hard, .Scheduled, 1⟩
      Backend.demoEvent rfl rfl rfl rfl (by decide) (by decide) (by decide)
      (by decide) rfl rfl rfl

/-- Claim C2: the DND resolver yields no interval for a user without quiet
hours and splits a midnight-wrapping window into the two UTC intervals
covering local `[00:00,end)` and `[start,24:00)` through the user's default
timezone; and a candidate event whose interval intersects an attendee's
resolved DND interval is rejected with a quiet-hours violation when its
tier is `Hard` and accepted when its tier is `Soft`. -/
theorem quiet_hours_enforcement :
    (∀ (u : Backend.User) (date : Int),
        u.dnd_window_start_local = none ∨ u.dnd_window_end_local = none →
        Backend.resolveDnd u date = []) ∧
    (∀ (u : Backend.User) (date st en : Int),
        u.dnd_window_start_local = some st →
        u.dnd_window_end_local = some en → en < st →
        Backend.resolveDnd u date =
          [(Backend.localToUtc u date 0, Backend.localToUtc u date en),
           (Backend.localToUtc u date st, Backend.localToUtc u date 1440)]) ∧
    (∀ (s : Backend.State) (key gid oid : Nat) (title : String)
        (start fin : Int) (atts : List Nat) (u : Backend.User),
        s.idem.lookup key = none →
        s.users.find? (fun x => x.user_id == oid) = some u →
        s.groups.contains gid = true →
        s.memberships.contains (oid, gid) = true →
        start < fin →
        (∀ e ∈ Backend.overlapSet s (oid :: atts) start fin none,
          e.constraint_level ≠ .Hard) →
        (Backend.candidateDndIntervals s (oid :: atts) start fin).any
          (fun iv => Backend.overlapsIv iv (start, fin)) = true →
        Backend.createEvent s key gid oid title start fin .Hard atts =
          (s, .error (.ConflictError .quietHours)) ∧
        ∃ (s' : Backend.State) (ev : Backend.Event),
          Backend.createEvent s key gid oid title start fin .Soft atts =
            (s', .ok ev)) := by
  refine ⟨?_, ?_, ?_⟩
  · intro u date h
    rcases h with h | h
    · simp only [Backend.resolveDnd, h]
    · cases hs : u.dnd_window_start_local with
      | none => simp only [Backend.resolveDnd, hs]
      | some st => simp only [Backend.resolveDnd, hs, h]
  · intro u date st en h1 h2 hlt
    simp only [Backend.resolveDnd, h1, h2]
    rw [if_pos hlt]
  · intro s key gid oid title start fin atts u hfresh huser hgrp hmem htime
      hnoh hdnd
    constructor
    · have heval := evaluate_hard_dnd_reject
        (Backend.overlapSet s (oid :: atts) start fin none)
        (Backend.candidateDndIntervals s (oid :: atts) start fin)
        start fin hnoh hdnd
      simp only [Backend.createEvent, hfresh, huser, Option.isNone_some,
        hgrp, hmem, Bool.not_true, Bool.false_eq_true, if_false, heval]
      rw [if_neg (not_le.mpr htime)]
    · have heval := evaluate_soft_accepts
        (Backend.overlapSet s (oid :: atts) start fin none)
        (Backend.candidateDndIntervals s (oid :: atts) start fin)
        start fin
      refine ⟨{ s with
          events := s.events ++
            [⟨s.nextId, gid, oid, title, start, fin, .Soft, .Scheduled, 1⟩],
          attendees := s.attendees ++
            (⟨s.nextId, oid, .going⟩ ::
              (atts.filter (fun uid => !(uid == oid))).map
                (fun uid => ⟨s.nextId, uid, .invited⟩)),
          ledger := s.ledger ++ [⟨s.nextId, oid, .create, none,
            some ⟨s.nextId, gid, oid, title, start, fin, .Soft, .Scheduled, 1⟩,
            some key⟩],
          idem := (key,
            ⟨s.nextId, gid, oid, title, start, fin, .Soft, .Scheduled, 1⟩) ::
              s.idem,
          nextId := s.nextId + 1 },
        ⟨s.nextId, gid, oid, title, start, fin, .Soft, .Scheduled, 1⟩, ?_⟩
      simp only [Backend.createEvent, hfresh, huser, Option.isNone_some,
        hgrp, hmem, Bool.not_true, Bool.false_eq_true, if_false, heval]
      rw [if_neg (not_le.mpr htime)]

/-- Claim C2 witness: the spec §8 scenario — user A (UTC-5, quiet hours
22:00-07:00 local, a midnight-wrapping window split into two UTC
intervals) organizing a Hard event at 23:00 local is rejected with a
quiet-hours violation; the same event as Soft is accepted, and user B
(no quiet hours) resolves to no interval. -/
theorem quiet_hours_enforcement_witness :
    Backend.resolveDnd Backend.userB 0 = [] ∧
    Backend.resolveDnd Backend.userA 0 = [(300, 720), (1620, 1740)] ∧
    Backend.createEvent Backend.demoState 7 10 1 "late" 1680 1740 .Hard [] =
      (Backend.demoState, .error (.ConflictError .quietHours)) ∧
    ∃ (s' : Backend.State) (ev : Backend.Event),
      Backend.createEvent Backend.demoState 7 10 1 "late" 1680 1740 .Soft [] =
        (s', .ok ev) := by
  have h := quiet_hours_enforcement.2.2 Backend.demoState 7 10 1 "late"
    1680 1740 [] Backend.userA rfl rfl rfl rfl (by decide) (by decide) rfl
  refine ⟨quiet_hours_enforcement.1 Backend.userB 0 (Or.inl rfl), ?_, h.1, h.2⟩
  have h2 := quiet_hours_enforcement.2.1 Backend.userA 0 1320 420 rfl rfl
    (by decide)
  simpa using h2

open Backend in
theorem findEvent_pres_of_events_eq (s X : State) (id : Nat) (e : Event)
    (h : findEvent s id = some e) (hX : X.events = s.events) :
    ∃ e', findEvent X id = some e' ∧ e'.event_id = e.event_id ∧
      e'.status = e.status := by
  refine ⟨e, ?_, rfl, rfl⟩
  rw [findEvent, hX]
  exact h

open Backend in
theorem findEvent_pres_of_replace (s X : State) (eid : Nat)
    (ev ev2 : Event) (id : Nat) (e : Event)
    (hfind : findEvent s eid = some ev)
    (hid : ev2.event_id = ev.event_id)
    (hX : X.events = s.events.map
      (fun x => if x.event_id == eid then ev2 else x))
    (h : findEvent s id = some e) :
    ∃ e', findEvent X id = some e' ∧ e'.event_id = e.event_id ∧
      (e' = e ∨ (e = ev ∧ e' = ev2)) := by
  have hfind' : s.events.find? (fun x => x.event_id == eid) = some ev := hfind
  have h' : s.events.find? (fun x => x.event_id == id) = some e := h
  have hpev : (ev.event_id == eid) = true :=
    @List.find?_some Event (fun x => x.event_id == eid) ev s.events hfind'
  have hpe : (e.event_id == id) = true :=
    @List.find?_some Event (fun x => x.event_id == id) e s.events h'
  have hevid : ev.event_id = eid := by simpa using hpev
  have heid : e.event_id = id := by simpa using hpe
  have hp : ∀ x : Event,
      ((if x.event_id == eid then ev2 else x).event_id == id) =
        (x.event_id == id) := by
    intro x
    by_cases hx : (x.event_id == eid) = true
    · rw [if_pos hx]
      have hxe : x.event_id = eid := by simpa using hx
      rw [hid, hevid, hxe]
    · rw [if_neg (by simp [hx])]
  have hmap : findEvent X id =
      some (if e.event_id == eid then ev2 else e) := by
    rw [findEvent, hX, find?_map_of_pred_inv _ _ hp, h']
    rfl
  by_cases hcase : (e.event_id == eid) = true
  · have heeid : e.event_id = eid := by simpa using hcase
    have hee : e = ev := by
      have hidq : id = eid := by rw [← heid, heeid]
      subst hidq
      exact Option.some.inj (h'.symm.trans hfind')
    refine ⟨ev2, ?_, ?_, Or.inr ⟨hee, rfl⟩⟩
    · rw [hmap, if_pos hcase]
    · rw [hee]
      exact hid
  · refine ⟨e, ?_, rfl, Or.inl rfl⟩
    rw [hmap, if_neg (by simp [hcase])]

open Backend in
theorem createEvent_events (s : State) (key gid oid : Nat)
    (title : String) (start fin : Int) (tier : Tier) (atts : List Nat) :
    (createEvent s key gid oid title start fin tier atts).1.events =
      s.events ∨
    ∃ ev,
      (createEvent s key gid oid title start fin tier atts).1.events =
        s.events ++ [ev] := by
  cases hl : s.idem.lookup key with
  | some prior => left; simp [createEvent, hl]
  | none =>
    simp only [createEvent, hl]
    split
    · left; rfl
    · split
      · left; rfl
      · split
        · left; rfl
        · split
          · left; rfl
          · split
            · left; rfl
            · right; exact ⟨_, rfl⟩

open Backend in
theorem updateEvent_events (s : State) (eid v a : Nat) (c : Changes) :
    (updateEvent s eid v a c).1.events = s.events ∨
    ∃ ev, findEvent s eid = some ev ∧
      (updateEvent s eid v a c).1.events = s.events.map
        (fun x => if x.event_id == eid then
          { applyChanges ev c with version := ev.version + 1 }
        else x) := by
  cases hfe : findEvent s eid with
  | none => left; simp [updateEvent, hfe]
  | some ev =>
    simp only [updateEvent, hfe]
    split
    · left; rfl
    · split
      · left; rfl
      · split
        · left; rfl
        · split
          · left; rfl
          · right; exact ⟨ev, rfl, rfl⟩

open Backend in
theorem cancelEvent_events (s : State) (eid v a : Nat) :
    (cancelEvent s eid v a).1.events = s.events ∨
    ∃ ev, findEvent s eid = some ev ∧
      (cancelEvent s eid v a).1.events = s.events.map
        (fun x => if x.event_id == eid then
          { ev with status := Status.Cancelled, version := ev.version + 1 }
        else x) := by
  cases hfe : findEvent s eid with
  | none => left; simp [cancelEvent, hfe]
  | some ev =>
    simp only [cancelEvent, hfe]
    split
    · left; rfl
    · split
      · left; rfl
      · right; exact ⟨ev, rfl, rfl⟩

open Backend in
theorem rsvpEvent_events (s : State) (eid uid : Nat) (st : RSVPStatus) :
    (rsvpEvent s eid uid st).1.events = s.events := by
  rw [rsvpEvent]
  split <;> rfl

open Backend in
theorem submitRequest_events (s : State) (eid pid : Nat) (c : Changes) :
    (submitRequest s eid pid c).1.events = s.events := by
  cases hfe : findEvent s eid with
  | none => simp [submitRequest, hfe]
  | some ev =>
    simp only [submitRequest, hfe]
    split <;> rfl

open Backend in
theorem rejectRequest_events (s : State) (rid oid : Nat) :
    (rejectRequest s rid oid).1.events = s.events := by
  cases hfr : findRequest s rid with
  | none => simp [rejectRequest, hfr]
  | some r =>
    simp only [rejectRequest, hfr]
    split
    · rfl
    · cases hfe : findEvent s r.event_id with
      | none => simp [hfe]
      | some ev =>
        simp only [hfe]
        split <;> rfl

open Backend in
theorem approveRequest_events (s : State) (rid oid : Nat) :
    (approveRequest s rid oid).1.events = s.events ∨
    ∃ eid v aid ch, (approveRequest s rid oid).1.events =
      (updateEvent s eid v aid ch).1.events := by
  cases hfr : findRequest s rid with
  | none => left; simp [approveRequest, hfr]
  | some r =>
    simp only [approveRequest, hfr]
    split
    · left; rfl
    · cases hfe : findEvent s r.event_id with
      | none => left; simp [hfe]
      | some ev =>
        simp only [hfe]
        split
        · left; rfl
        · rcases hu : updateEvent s r.event_id ev.version oid r.changes with
            ⟨s1, res⟩
          cases res with
          | error err => left; rfl
          | ok ev2 =>
            right
            refine ⟨r.event_id, ev.version, oid, r.changes, ?_⟩
            rw [hu]

/-- Claim C4: across every operation of the modelled backend, a stored
event's status only ever transitions `Scheduled → Cancelled` and never the
reverse, and the event row is never deleted (its id stays fetchable);
after a successful cancel the id is fetchable with status `Cancelled`. -/
theorem status_soft_delete :
    (∀ (s : Backend.State) (op : Backend.Op) (id : Nat) (e : Backend.Event),
        Backend.findEvent s id = some e →
        ∃ e', Backend.findEvent (Backend.stepOp s op) id = some e' ∧
          e'.event_id = e.event_id ∧
          (e'.status = e.status ∨
            (e.status = .Scheduled ∧ e'.status = .Cancelled))) ∧
    (∀ (s : Backend.State) (eventId v a : Nat) (s' : Backend.State)
        (ev : Backend.Event),
        Backend.cancelEvent s eventId v a = (s', .ok ev) →
        Backend.findEvent s' eventId = some ev ∧ ev.status = .Cancelled) := by
  constructor
  · intro s op id e h
    cases op with
    | opCreate key gid oid t st fin tier atts =>
      simp only [Backend.stepOp]
      rcases createEvent_events s key gid oid t st fin tier atts with
        hE | ⟨ev, hE⟩
      · obtain ⟨e', h1, h2, h3⟩ := findEvent_pres_of_events_eq s _ id e h hE
        exact ⟨e', h1, h2, Or.inl h3⟩
      · refine ⟨e, ?_, rfl, Or.inl rfl⟩
        rw [Backend.findEvent, hE]
        exact find?_append_some _ _ _ _ h
    | opUpdate eid v aid c =>
      simp only [Backend.stepOp]
      rcases updateEvent_events s eid v aid c with hE | ⟨ev, hfe, hE⟩
      · obtain ⟨e', h1, h2, h3⟩ := findEvent_pres_of_events_eq s _ id e h hE
        exact ⟨e', h1, h2, Or.inl h3⟩
      · obtain ⟨e', h1, h2, h3⟩ := findEvent_pres_of_replace s _ eid ev
          { Backend.applyChanges ev c with version := ev.version + 1 }
          id e hfe rfl hE h
        refine ⟨e', h1, h2, ?_⟩
        rcases h3 with rfl | ⟨rfl, rfl⟩
        · exact Or.inl rfl
        · exact Or.inl rfl
    | opCancel eid v aid =>
      simp only [Backend.stepOp]
      rcases cancelEvent_events s eid v aid with hE | ⟨ev, hfe, hE⟩
      · obtain ⟨e', h1, h2, h3⟩ := findEvent_pres_of_events_eq s _ id e h hE
        exact ⟨e', h1, h2, Or.inl h3⟩
      · obtain ⟨e', h1, h2, h3⟩ := findEvent_pres_of_replace s _ eid ev
          { ev with status := Backend.Status.Cancelled,
                    version := ev.version + 1 }
          id e hfe rfl hE h
        refine ⟨e', h1, h2, ?_⟩
        rcases h3 with rfl | ⟨rfl, rfl⟩
        · exact Or.inl rfl
        · cases hst : e.status with
          | Scheduled => exact Or.inr ⟨rfl, rfl⟩
          | Cancelled => exact Or.inl rfl
    | opRsvp eid uid st =>
      simp only [Backend.stepOp]
      obtain ⟨e', h1, h2, h3⟩ := findEvent_pres_of_events_eq s _ id e h
        (rsvpEvent_events s eid uid st)
      exact ⟨e', h1, h2, Or.inl h3⟩
    | opSubmit eid pid c =>
      simp only [Backend.stepOp]
      obtain ⟨e', h1, h2, h3⟩ := findEvent_pres_of_events_eq s _ id e h
        (submitRequest_events s eid pid c)
      exact ⟨e', h1, h2, Or.inl h3⟩
    | opApprove rid oid =>
      simp only [Backend.stepOp]
      rcases approveRequest_events s rid oid with hE | ⟨eid, v, aid, ch, hE⟩
      · obtain ⟨e', h1, h2, h3⟩ := findEvent_pres_of_events_eq s _ id e h hE
        exact ⟨e', h1, h2, Or.inl h3⟩
      · rcases updateEvent_events s eid v aid ch with hE2 | ⟨ev, hfe, hE2⟩
        · obtain ⟨e', h1, h2, h3⟩ := findEvent_pres_of_events_eq s _ id e h
            (hE.trans hE2)
          exact ⟨e', h1, h2, Or.inl h3⟩
        · obtain ⟨e', h1, h2, h3⟩ := findEvent_pres_of_replace s _ eid ev
            { Backend.applyChanges ev ch with version := ev.version + 1 }
            id e hfe rfl (hE.trans hE2) h
          refine ⟨e', h1, h2, ?_⟩
          rcases h3 with rfl | ⟨rfl, rfl⟩
          · exact Or.inl rfl
          · exact Or.inl rfl
    | opReject rid oid =>
      simp only [Backend.stepOp]
      obtain ⟨e', h1, h2, h3⟩ := findEvent_pres_of_events_eq s _ id e h
        (rejectRequest_events s rid oid)
      exact ⟨e', h1, h2, Or.inl h3⟩
  · intro s eventId v a s' ev hcall
    cases hfe : Backend.findEvent s eventId with
    | none =>
      simp only [Backend.cancelEvent, hfe] at hcall
      exact absurd (congrArg Prod.snd hcall) (by simp)
    | some ev0 =>
      simp only [Backend.cancelEvent, hfe] at hcall
      split at hcall
      · exact absurd (congrArg Prod.snd hcall) (by simp)
      · split at hcall
        · exact absurd (congrArg Prod.snd hcall) (by simp)
        · simp only [Prod.mk.injEq, Except.ok.injEq] at hcall
          obtain ⟨h1, h2⟩ := hcall
          subst h2
          subst h1
          exact ⟨findEvent_replace s eventId ev0 _ hfe rfl, rfl⟩

/-- Claim C4 witness: cancelling `demoEvent` keeps its row fetchable with
status `Cancelled`, and the generic step invariant applied to that concrete
cancel step. -/
theorem status_soft_delete_witness :
    Backend.findEvent Backend.demoState2 100 = some Backend.demoEvent ∧
    (∃ e', Backend.findEvent
        (Backend.stepOp Backend.demoState2 (.opCancel 100 1 2)) 100 =
          some e' ∧
      e'.event_id = Backend.demoEvent.event_id ∧
      (e'.status = Backend.demoEvent.status ∨
        (Backend.demoEvent.status = .Scheduled ∧
          e'.status = .Cancelled))) ∧
    (Backend.findEvent (Backend.cancelEvent Backend.demoState2 100 1 2).1 100 =
        some ⟨100, 10, 2, "standup", 1000, 1060, .Hard, .Cancelled, 2⟩ ∧
      (⟨100, 10, 2, "standup", 1000, 1060, .Hard, .Cancelled, 2⟩ :
        Backend.Event).status = .Cancelled) :=
  ⟨rfl,
   status_soft_delete.1 Backend.demoState2 (.opCancel 100 1 2) 100
     Backend.demoEvent rfl,
   status_soft_delete.2 Backend.demoState2 100 1 2
     (Backend.cancelEvent Backend.demoState2 100 1 2).1
     ⟨100, 10, 2, "standup", 1000, 1060, .Hard, .Cancelled, 2⟩ rfl⟩
